import Mathlib

/-!
Verification of the okta-fastpass-deployment-toolkit scripts.

Shallow embedding of the pure decision logic of the Python sources:
`find_app_users_no_device.py`, `okta_user_functions.py`,
`okta_device_functions.py` and `send_o365_email.py`.  Remote calls are
modelled by explicit response values handed to the embedded functions;
module-level dict caches are modelled by their lookup functions; a call to
`sys.exit(1)` is modelled by a dedicated fatal result value.
-/

namespace Okta

/-- Profile sub-dictionary of an Okta user as the scripts read it.  The
`email` key is read unconditionally, so it is a plain field; `login`,
`displayName`, `firstName` and `lastName` are guarded by presence checks in
the code and are therefore modelled as `Option`. -/
structure Profile where
  login : Option String
  email : String
  displayName : Option String
  firstName : Option String
  lastName : Option String
deriving DecidableEq

/-- A member record as it appears in the `users` list of an application. -/
structure AppUser where
  id : String
  profile : Profile
deriving DecidableEq

/-- An application record at the gap-analysis stage of
`find_app_users_no_device.py`: display name, membership, and the derived
`usersNoRegisteredDevices` list that `find_app_users_without_devices`
overwrites. -/
structure Application where
  name : String
  users : List AppUser
  usersNoRegisteredDevices : List AppUser
deriving DecidableEq

/-- Embedding of `find_app_users_without_devices`
(`find_app_users_no_device.py`, lines 109-124).  The module-level dict
`USER_DEVICE_MAPPING` is modelled by its key-membership function
`userDeviceMapping`.  For every application the code resets
`usersNoRegisteredDevices` to the empty list and then appends, in
membership order, exactly the members whose `id` is not a key of the
mapping; that loop is the order-preserving filter below.  The code mutates
the app dicts in place and returns the same list, which the embedding
renders as a map over the list. -/
def find_app_users_without_devices (userDeviceMapping : String → Bool)
    (app_list : List Application) : List Application :=
  app_list.map fun app =>
    { app with usersNoRegisteredDevices :=
        app.users.filter fun user => !userDeviceMapping user.id }

/-- A user record at the stage where `find_user_push_factor` has attached
the `userPushFactorExists` flag; these are the elements of the
`usersTargetedForReEnrollment` lists consumed by
`generate_unique_users_for_reenrollment`. -/
structure TargetUser where
  id : String
  profile : Profile
  userPushFactorExists : Bool
deriving DecidableEq

/-- An application record as consumed by
`generate_unique_users_for_reenrollment`: only the display name and the
`usersTargetedForReEnrollment` list are read. -/
structure TargetedApp where
  name : String
  usersTargetedForReEnrollment : List TargetUser
deriving DecidableEq

/-- One value of the `unique_users` dict built by
`generate_unique_users_for_reenrollment` (lines 186-197). -/
structure ReenrollmentCandidate where
  userId : String
  userName : String
  userFullName : String
  userEmail : String
  oktaVerifyExistingFactor : Bool
  appsInScope : List String
deriving DecidableEq

/-- Boolean test that the first list is an initial segment of the second;
building block for the Python substring operator `in`. -/
def charsStartWith : List Char → List Char → Bool
  | [], _ => true
  | _ :: _, [] => false
  | a :: as, b :: bs => if a == b then charsStartWith as bs else false

/-- Boolean test that `needle` occurs as a contiguous run inside `hay`;
this is the Python expression `needle in hay` on strings. -/
def charsContain (needle : List Char) : List Char → Bool
  | [] => charsStartWith needle []
  | b :: bs => charsStartWith needle (b :: bs) || charsContain needle bs

/-- Python `needle in hay` for strings. -/
def strContain (hay needle : String) : Bool :=
  charsContain needle.data hay.data

/-- The `userName` computed at lines 169-172 of
`find_app_users_no_device.py`: the profile `login` when that key is
present, otherwise the profile `email`. -/
def userNameOf (tu : TargetUser) : String :=
  match tu.profile.login with
  | some l => l
  | none => tu.profile.email

/-- Junk value for the unreachable-in-practice corner of lines 176-181
where the code would raise an uncaught KeyError (which kills the whole
run): the f-string reads the `lastName` profile key without checking it.
No claim touches that corner; the embedding returns this marker there. -/
def keyErrorLastName : String := "<KeyError lastName>"

/-- The `userFullName` computed at lines 176-181 of
`find_app_users_no_device.py`, embedded exactly as written, including the
slip in the elif condition: the code tests
`"lastName" not in target_user['profile']['email']`, i.e. membership of
the literal substring `lastName` in the email STRING, not presence of the
`lastName` key in the profile dict.  So the full-name branch is reached
only when the displayName key is absent, the firstName key is present, and
the email string happens to contain the characters `lastName`. -/
def userFullNameOf (tu : TargetUser) : String :=
  match tu.profile.displayName with
  | some d => d
  | none =>
    match tu.profile.firstName with
    | none => userNameOf tu
    | some f =>
      if strContain tu.profile.email "lastName" then
        match tu.profile.lastName with
        | some l => f ++ " " ++ l
        | none => f ++ " " ++ keyErrorLastName
      else
        userNameOf tu

/-- The dict literal inserted at lines 186-197 for a user not yet present
in `unique_users`, with the `appsInScope` list abstracted so that the same
constructor also describes the entry after later appends. -/
def mkCandidate (scope : List String) (tu : TargetUser) : ReenrollmentCandidate :=
  { userId := tu.id
    userName := userNameOf tu
    userFullName := userFullNameOf tu
    userEmail := tu.profile.email
    oktaVerifyExistingFactor := tu.userPushFactorExists
    appsInScope := scope }

/-- Processing of one `target_user` at lines 162-197: when the user id is
already a key of `unique_users`, only the current application name is
appended to that entry `appsInScope`; otherwise a fresh entry is inserted.
The dict keyed by user id is modelled by its lookup function, which is all
the formalised properties observe. -/
def addTargetUser (appName : String)
    (m : String → Option ReenrollmentCandidate) (tu : TargetUser) :
    String → Option ReenrollmentCandidate :=
  fun k =>
    if k = tu.id then
      match m tu.id with
      | some e => some { e with appsInScope := e.appsInScope ++ [appName] }
      | none => some (mkCandidate [appName] tu)
    else m k

/-- The inner loop of `generate_unique_users_for_reenrollment` over the
targeted users of one application. -/
def processTargetedApp (m : String → Option ReenrollmentCandidate)
    (app : TargetedApp) : String → Option ReenrollmentCandidate :=
  app.usersTargetedForReEnrollment.foldl (addTargetUser app.name) m

/-- Embedding of `generate_unique_users_for_reenrollment`
(`find_app_users_no_device.py`, lines 157-199): fold over the application
list starting from the empty dict. -/
def generate_unique_users_for_reenrollment (app_list : List TargetedApp) :
    String → Option ReenrollmentCandidate :=
  app_list.foldl processTargetedApp (fun _ => none)

/-- First element of a targeted-user list carrying the given user id. -/
def firstOcc (uid : String) : List TargetUser → Option TargetUser
  | [] => none
  | tu :: tus => if tu.id = uid then some tu else firstOcc uid tus

/-- One copy of `nm` per occurrence of the user id in the list: the names
appended to `appsInScope` while one application is processed. -/
def appScope (nm uid : String) : List TargetUser → List String
  | [] => []
  | tu :: tus =>
    if tu.id = uid then nm :: appScope nm uid tus else appScope nm uid tus

/-- All names appended to the `appsInScope` of the given user over a whole
application list, in processing order. -/
def scopeNames (uid : String) : List TargetedApp → List String
  | [] => []
  | a :: l => appScope a.name uid a.usersTargetedForReEnrollment ++ scopeNames uid l

/-- The application name and targeted-user record of the first occurrence
of the given user id in processing order; this record supplies every field
of the inserted entry except later `appsInScope` appends. -/
def firstHit (uid : String) : List TargetedApp → Option (String × TargetUser)
  | [] => none
  | a :: l =>
    match firstOcc uid a.usersTargetedForReEnrollment with
    | some tu => some (a.name, tu)
    | none => firstHit uid l

/-- The `appsInScope` of a candidate viewed as a set of names. -/
def candidateScopeSet (e : ReenrollmentCandidate) : Set String :=
  { n | n ∈ e.appsInScope }

/-- ASCII uppercasing of the first two characters of a string, as Python
`email[:2].upper() + email[2:]` computes it for the ASCII inputs the claims
range over (the Python upper is Unicode-aware, `Char.toUpper` is ASCII). -/
def upperFirstTwoChars : List Char → List Char
  | [] => []
  | [c] => [c.toUpper]
  | a :: b :: rest => a.toUpper :: b.toUpper :: rest

/-- Python `email[:2].upper() + email[2:]` at line 168 of
`okta_user_functions.py`. -/
def upperFirstTwo (email : String) : String :=
  String.mk (upperFirstTwoChars email.data)

/-- The validation at line 161 of `okta_user_functions.py`:
`re.match(r".*@siteone\.com", email)` succeeds exactly when the email
contains the characters `@siteone.com` as a contiguous run (the newline
subtlety of the regex dot is irrelevant to every claim input). -/
def siteoneEmailOk (email : String) : Bool :=
  strContain email "@siteone.com"

/-- Embedding of `fetch_user` (`okta_user_functions.py`, lines 159-188) up
to the point where the lookup query is issued.  The result is the email
string placed in the `profile.email eq` filter of the query; `none` models
the ValueError branch, which logs and calls `sys.exit(1)` so that no query
is ever issued.  A `None` argument models the `email=None` default. -/
def fetch_user (email : Option String) : Option String :=
  match email with
  | none => none
  | some e => if siteoneEmailOk e then some (upperFirstTwo e) else none

/-- An enrolled MFA factor as the scripts read it: only the `id` and
`factorType` keys are consulted by the embedded logic. -/
structure Factor where
  id : String
  factorType : String
deriving DecidableEq

/-- The possible outcomes of the GET on the factors sub-resource in
`fetch_user_factors`: a parsed 2xx body (a factor list, or a dict carrying
an `error` key, which the code turns into a RequestException), an
HTTPError raised by `raise_for_status` with the response status code, a
Timeout, or another transport-level RequestException. -/
inductive FactorsApiResult where
  | success (factors : List Factor)
  | successWithErrorField
  | httpError (status : Nat)
  | timeout
  | transportError
deriving DecidableEq

/-- Result of `fetch_user_factors`: either a factor list returned to the
caller, or the `sys.exit(1)` taken by every fatal handler. -/
inductive FactorsFetchOutcome where
  | ok (factors : List Factor)
  | fatalExit
deriving DecidableEq

/-- Embedding of `fetch_user_factors` (`okta_user_functions.py`, lines
266-308).  The HTTPError handler returns an empty list when the status is
404 and exits otherwise; Timeout is a subclass of RequestException in the
requests library, so a timeout lands in the generic RequestException
handler, which exits; the embedded `error` field raises a
RequestException, same handler; any other transport failure exits via the
RequestException or bare Exception handlers. -/
def fetch_user_factors : FactorsApiResult → FactorsFetchOutcome
  | .success factors => .ok factors
  | .successWithErrorField => .fatalExit
  | .httpError status => if status = 404 then .ok [] else .fatalExit
  | .timeout => .fatalExit
  | .transportError => .fatalExit

/-- The error classes of the factors fetch: every response other than a
clean 2xx body. -/
def isErrorResponse : FactorsApiResult → Bool
  | .success _ => false
  | .successWithErrorField => true
  | .httpError _ => true
  | .timeout => true
  | .transportError => true

/-- A user record entering `unenroll_all_user_push_factors`: the profile
object plus the attributes attached by `find_user_push_factor`, and the
two result lists the function overwrites.  In Python the two result keys
may be absent before the call; the function starts by resetting both to
empty lists, so their prior values are irrelevant. -/
structure EnrollmentUser where
  id : String
  profile : Profile
  userPushFactorExists : Bool
  userPushFactorList : List Factor
  allUserFactors : List Factor
  userSuccessfulUnenrolledFactors : List Factor
  userFailedUnenrolledFactors : List Factor
deriving DecidableEq

/-- Trace of the unenroll loop: the factors for which an unenroll call was
attempted, and the two result lists, each in loop order. -/
structure UnenrollTrace where
  calls : List Factor
  succeeded : List Factor
  failed : List Factor
deriving DecidableEq

/-- The loop of `unenroll_all_user_push_factors` (lines 380-399 of
`okta_user_functions.py`) restricted to the runs on which every
`unenroll_user_factor` call RETURNS a Boolean: `ok i` is the value the
i-th HTTP DELETE returns — True on a 2xx response, False from the
HTTPError and Timeout handlers.  The third handler of
`unenroll_user_factor` (line 452) names RequestException, which the module
never imports (line 7 imports only Timeout and HTTPError), so a requests
failure of any other class raises an uncaught NameError and the call
returns nothing at all; that aborting path is outside this Boolean model
and is modelled by `unenrollRun` below, which agrees with this loop on
every returning run. -/
def unenrollLoop (ok : Nat → Bool) : List Factor → Nat → UnenrollTrace
  | [], _ => ⟨[], [], []⟩
  | f :: fs, i =>
    let rest := unenrollLoop ok fs (i + 1)
    if ok i then ⟨f :: rest.calls, f :: rest.succeeded, rest.failed⟩
    else ⟨f :: rest.calls, rest.succeeded, f :: rest.failed⟩

/-- Embedding of `unenroll_all_user_push_factors` (`okta_user_functions.py`,
lines 360-401): reset the two result lists, loop over
`userPushFactorList`, and return the updated user record. -/
def unenroll_all_user_push_factors (ok : Nat → Bool) (u : EnrollmentUser) :
    EnrollmentUser :=
  let t := unenrollLoop ok u.userPushFactorList 0
  { u with
    userSuccessfulUnenrolledFactors := t.succeeded
    userFailedUnenrolledFactors := t.failed }

/-- Full outcome classification of one `unenroll_user_factor` call
(`okta_user_functions.py`, lines 404-463): a 2xx response returns True; an
HTTPError or a Timeout is caught, logged and returns False; any other
requests failure (for example a ConnectionError) reaches the clause
`except RequestException` at line 452, whose bare name is never imported
(line 7 imports only Timeout and HTTPError), so evaluating that clause
raises NameError and the call returns nothing. -/
inductive UnenrollCallOutcome where
  | ok
  | httpOrTimeout
  | otherRequestError
deriving DecidableEq

/-- The unenroll-all loop with the full per-call outcome.  `none` models
the uncaught NameError propagating out of `unenroll_all_user_push_factors`
(whose only handlers catch ValueError around the list appends) and
aborting the run: the remaining factors are never attempted and the
factor of the crashing call is never recorded in either result list. -/
def unenrollRun (out : Nat → UnenrollCallOutcome) :
    List Factor → Nat → Option UnenrollTrace
  | [], _ => some ⟨[], [], []⟩
  | f :: fs, i =>
    match out i with
    | .ok =>
      (unenrollRun out fs (i + 1)).map fun rest =>
        ⟨f :: rest.calls, f :: rest.succeeded, rest.failed⟩
    | .httpOrTimeout =>
      (unenrollRun out fs (i + 1)).map fun rest =>
        ⟨f :: rest.calls, rest.succeeded, f :: rest.failed⟩
    | .otherRequestError => none

/-- One page of a paged Okta endpoint as `fetch_users`
(`okta_user_functions.py`, lines 97-154) and `fetch_devices`
(`okta_device_functions.py`, lines 86-141) consume it: the parsed
collection of the 2xx body, and whether the response link header carries a
`rel="next"` continuation cursor. -/
structure FetchPage (α : Type) where
  items : List α
  hasNextLink : Bool
deriving DecidableEq

/-- Embedding of the shared recursion of `fetch_users` and
`fetch_devices`: each call consumes one page, appends its items, and
recurses exactly when the link header of the response carries the
continuation cursor; the pair returned is the accumulated collection and
the number of calls issued.  The argument lists the successive pages the
endpoint serves. -/
def paged_fetch {α : Type} : List (FetchPage α) → List α × Nat
  | [] => ([], 0)
  | p :: rest =>
    if p.hasNextLink then
      let r := paged_fetch rest
      (p.items ++ r.1, r.2 + 1)
    else (p.items, 1)

/-- Concatenation of the collections of a page sequence, in page order. -/
def pagesItems {α : Type} : List (FetchPage α) → List α
  | [] => []
  | p :: rest => p.items ++ pagesItems rest

/-- A well-formed paged endpoint: every non-terminal page carries the
continuation cursor and the terminal page carries none. -/
inductive CursorChain {α : Type} : List (FetchPage α) → Prop where
  | terminal (items : List α) : CursorChain [⟨items, false⟩]
  | step (items : List α) (rest : List (FetchPage α)) :
      CursorChain rest → CursorChain (⟨items, true⟩ :: rest)

/-- Embedding of `is_token_expired` (`send_o365_email.py`, lines 129-139)
with the token fields and the current clock reading as arguments; Python
integer timestamps are modelled as `Int`. -/
def is_token_expired (fetched_timestamp expires_in current_time : Int) : Bool :=
  if fetched_timestamp + expires_in ≥ current_time then false else true

/-- A concrete targeted user used to instantiate the aggregator claims:
first record carrying the id `u1`. -/
def cexUserA : TargetUser :=
  { id := "u1"
    profile :=
      { login := some "u1a@siteone.com"
        email := "first@siteone.com"
        displayName := some "User One A"
        firstName := none
        lastName := none }
    userPushFactorExists := true }

/-- A second record carrying the same id `u1` but different non-set
fields. -/
def cexUserB : TargetUser :=
  { id := "u1"
    profile :=
      { login := some "u1b@siteone.com"
        email := "second@siteone.com"
        displayName := some "User One B"
        firstName := none
        lastName := none }
    userPushFactorExists := false }

/-- Application A of the concrete aggregator scenario. -/
def cexAppA : TargetedApp :=
  { name := "App A", usersTargetedForReEnrollment := [cexUserA] }

/-- Application B of the concrete aggregator scenario; it lists the same
user id as application A. -/
def cexAppB : TargetedApp :=
  { name := "App B", usersTargetedForReEnrollment := [cexUserB] }

/-- The three-page endpoint of the pagination scenario: two pages carrying
the continuation cursor and a terminal page. -/
def examplePages : List (FetchPage String) :=
  [⟨["P1a"], true⟩, ⟨["P2a", "P2b"], true⟩, ⟨["P3a"], false⟩]

/-! Helper lemmas about the aggregator. -/

theorem foldl_addTargetUser_apply (nm : String) (tus : List TargetUser) :
    ∀ (m : String → Option ReenrollmentCandidate) (uid : String),
      tus.foldl (addTargetUser nm) m uid =
        match m uid with
        | some e => some { e with appsInScope := e.appsInScope ++ appScope nm uid tus }
        | none =>
          match firstOcc uid tus with
          | some tu => some (mkCandidate (appScope nm uid tus) tu)
          | none => none := by
  induction tus with
  | nil =>
    intro m uid
    cases hm : m uid <;> simp [appScope, firstOcc, hm]
  | cons tu tus ih =>
    intro m uid
    simp only [List.foldl_cons]
    rw [ih]
    by_cases h : tu.id = uid
    · subst h
      cases hm : m tu.id <;>
        simp [addTargetUser, appScope, firstOcc, mkCandidate, hm, List.append_assoc]
    · have h2 : ¬ uid = tu.id := fun e => h e.symm
      cases hm : m uid <;>
        simp [addTargetUser, appScope, firstOcc, hm, h, h2]

theorem firstOcc_eq_none (uid : String) (tus : List TargetUser) :
    firstOcc uid tus = none ↔ ∀ tu ∈ tus, tu.id ≠ uid := by
  induction tus with
  | nil => simp [firstOcc]
  | cons tu tus ih =>
    by_cases h : tu.id = uid <;> simp [firstOcc, h, ih]

theorem appScope_eq_nil (nm uid : String) (tus : List TargetUser)
    (h : ∀ tu ∈ tus, tu.id ≠ uid) : appScope nm uid tus = [] := by
  induction tus with
  | nil => rfl
  | cons tu tus ih =>
    have := h tu (List.mem_cons_self tu tus)
    simp only [appScope, if_neg this]
    exact ih fun tu2 htu2 => h tu2 (List.mem_cons_of_mem tu htu2)

theorem foldl_processTargetedApp_apply (l : List TargetedApp) :
    ∀ (m : String → Option ReenrollmentCandidate) (uid : String),
      (l.foldl processTargetedApp m) uid =
        match m uid with
        | some e => some { e with appsInScope := e.appsInScope ++ scopeNames uid l }
        | none =>
          match firstHit uid l with
          | some p => some (mkCandidate (scopeNames uid l) p.2)
          | none => none := by
  induction l with
  | nil =>
    intro m uid
    cases hm : m uid <;> simp [scopeNames, firstHit, hm]
  | cons a l ih =>
    intro m uid
    simp only [List.foldl_cons]
    rw [ih]
    simp only [processTargetedApp]
    rw [foldl_addTargetUser_apply]
    cases hm : m uid with
    | some e => simp [scopeNames, List.append_assoc]
    | none =>
      cases hf : firstOcc uid a.usersTargetedForReEnrollment with
      | some tu => simp [scopeNames, firstHit, hf, mkCandidate]
      | none =>
        have hnil : appScope a.name uid a.usersTargetedForReEnrollment = [] :=
          appScope_eq_nil _ _ _ ((firstOcc_eq_none uid _).mp hf)
        simp [scopeNames, firstHit, hf, hnil]

theorem generate_unique_users_apply (l : List TargetedApp) (uid : String) :
    generate_unique_users_for_reenrollment l uid =
      Option.map (fun p => mkCandidate (scopeNames uid l) p.2) (firstHit uid l) := by
  unfold generate_unique_users_for_reenrollment
  rw [foldl_processTargetedApp_apply]
  cases hf : firstHit uid l <;> simp

theorem mem_appScope (nm uid n : String) (tus : List TargetUser) :
    n ∈ appScope nm uid tus ↔ n = nm ∧ ∃ tu ∈ tus, tu.id = uid := by
  induction tus with
  | nil => simp [appScope]
  | cons tu tus ih =>
    by_cases h : tu.id = uid <;> (simp [appScope, h, ih]; try tauto)

theorem mem_scopeNames (uid n : String) (l : List TargetedApp) :
    n ∈ scopeNames uid l ↔
      ∃ a ∈ l, a.name = n ∧ ∃ tu ∈ a.usersTargetedForReEnrollment, tu.id = uid := by
  induction l with
  | nil => simp [scopeNames]
  | cons a l ih =>
    simp [scopeNames, mem_appScope, ih]
    constructor
    · rintro (⟨hn, tu, htu, hid⟩ | ⟨a2, ha2, hn, tu, htu, hid⟩)
      · exact Or.inl ⟨hn.symm, tu, htu, hid⟩
      · exact Or.inr ⟨a2, ha2, hn, tu, htu, hid⟩
    · rintro (⟨hn, tu, htu, hid⟩ | ⟨a2, ha2, hn, tu, htu, hid⟩)
      · exact Or.inl ⟨hn.symm, tu, htu, hid⟩
      · exact Or.inr ⟨a2, ha2, hn, tu, htu, hid⟩

theorem firstHit_eq_none (uid : String) (l : List TargetedApp) :
    firstHit uid l = none ↔
      ∀ a ∈ l, ∀ tu ∈ a.usersTargetedForReEnrollment, tu.id ≠ uid := by
  induction l with
  | nil => simp [firstHit]
  | cons a l ih =>
    cases hf : firstOcc uid a.usersTargetedForReEnrollment with
    | some tu =>
      simp only [firstHit, hf]
      constructor
      · intro h; cases h
      · intro h
        exfalso
        have hnone : firstOcc uid a.usersTargetedForReEnrollment ≠ none := by
          simp [hf]
        rw [Ne, firstOcc_eq_none] at hnone
        push_neg at hnone
        obtain ⟨tu2, htu2, hid⟩ := hnone
        exact h a (List.mem_cons_self a l) tu2 htu2 hid
    | none =>
      simp only [firstHit, hf]
      rw [ih]
      have hall : ∀ tu ∈ a.usersTargetedForReEnrollment, tu.id ≠ uid :=
        (firstOcc_eq_none uid _).mp hf
      constructor
      · intro h a2 ha2
        rcases List.mem_cons.mp ha2 with rfl | ha2
        · exact hall
        · exact h a2 ha2
      · intro h a2 ha2
        exact h a2 (List.mem_cons_of_mem a ha2)

theorem firstHit_isSome (uid : String) (l : List TargetedApp) :
    (firstHit uid l).isSome = true ↔
      ∃ a ∈ l, ∃ tu ∈ a.usersTargetedForReEnrollment, tu.id = uid := by
  rw [Option.isSome_iff_ne_none, Ne, firstHit_eq_none]
  push_neg
  rfl

/-! Helper lemmas about the unenroll loop and the paged fetch. -/

theorem unenrollRun_agrees_with_loop (out : Nat → UnenrollCallOutcome)
    (fs : List Factor) (h : ∀ j, out j ≠ .otherRequestError) :
    ∀ i, unenrollRun out fs i
      = some (unenrollLoop (fun j => out j == .ok) fs i) := by
  induction fs with
  | nil => intro i; rfl
  | cons f fs ih =>
    intro i
    cases hout : out i with
    | ok => simp [unenrollRun, unenrollLoop, hout, ih (i + 1)]
    | httpOrTimeout => simp [unenrollRun, unenrollLoop, hout, ih (i + 1)]
    | otherRequestError => exact absurd hout (h i)

theorem unenrollLoop_count (ok : Nat → Bool) (fs : List Factor) (f : Factor) :
    ∀ i, (unenrollLoop ok fs i).succeeded.count f
        + (unenrollLoop ok fs i).failed.count f
      = fs.count f := by
  induction fs with
  | nil => intro i; rfl
  | cons g fs ih =>
    intro i
    have h2 := ih (i + 1)
    cases hok : ok i <;> simp [unenrollLoop, hok, List.count_cons] <;> omega

theorem unenrollLoop_succeeded_sublist (ok : Nat → Bool) (fs : List Factor) :
    ∀ i, List.Sublist (unenrollLoop ok fs i).succeeded fs := by
  induction fs with
  | nil => intro i; simp [unenrollLoop]
  | cons g fs ih =>
    intro i
    cases hok : ok i <;> simp [unenrollLoop, hok]
    · exact List.Sublist.cons g (ih (i + 1))
    · exact ih (i + 1)

theorem unenrollLoop_failed_sublist (ok : Nat → Bool) (fs : List Factor) :
    ∀ i, List.Sublist (unenrollLoop ok fs i).failed fs := by
  induction fs with
  | nil => intro i; simp [unenrollLoop]
  | cons g fs ih =>
    intro i
    cases hok : ok i <;> simp [unenrollLoop, hok]
    · exact ih (i + 1)
    · exact List.Sublist.cons g (ih (i + 1))

/-! The claim theorems. -/

/-- Claim C1: for every device-ownership index and application list,
`find_app_users_without_devices` sets `usersNoRegisteredDevices` of each
application to exactly those members whose identifier is absent from the
index — the output is a sublist of the membership (hence a subset that
preserves membership order) and a member is included iff its identifier is
not a key of the index; the other application fields are untouched. -/
theorem find_app_users_without_devices_spec
    (userDeviceMapping : String → Bool) (app_list : List Application) :
    List.Forall₂
      (fun a a2 =>
        a2.name = a.name ∧ a2.users = a.users ∧
        List.Sublist a2.usersNoRegisteredDevices a.users ∧
        ∀ u, u ∈ a2.usersNoRegisteredDevices ↔
          u ∈ a.users ∧ userDeviceMapping u.id = false)
      app_list (find_app_users_without_devices userDeviceMapping app_list) := by
  induction app_list with
  | nil => simp [find_app_users_without_devices]
  | cons a l ih =>
    simp only [find_app_users_without_devices, List.map_cons] at ih ⊢
    refine List.Forall₂.cons ⟨rfl, rfl, List.filter_sublist _, ?_⟩ ih
    intro u
    simp [List.mem_filter]

/-- Claim C2: the aggregator is idempotent on repeated application to the
same input (in this purely functional embedding a second run on the same
input is the same term, so that conjunct is definitional) and
order-independent on the final set of users: for permuted application
lists, every user id is mapped to the same `appsInScope`-viewed-as-a-set,
and is present in one result iff present in the other. -/
theorem generate_unique_users_order_independent
    (l₁ l₂ : List TargetedApp) (h : l₁.Perm l₂) :
    generate_unique_users_for_reenrollment l₁
        = generate_unique_users_for_reenrollment l₁ ∧
    ∀ uid : String,
      Option.map candidateScopeSet (generate_unique_users_for_reenrollment l₁ uid)
        = Option.map candidateScopeSet (generate_unique_users_for_reenrollment l₂ uid) := by
  refine ⟨rfl, fun uid => ?_⟩
  rw [generate_unique_users_apply, generate_unique_users_apply]
  have hsome : ((firstHit uid l₁).isSome = true) ↔ ((firstHit uid l₂).isSome = true) := by
    simp only [firstHit_isSome, h.mem_iff]
  cases hf₁ : firstHit uid l₁ with
  | none =>
    have hf₂ : firstHit uid l₂ = none := by
      rw [hf₁] at hsome
      simp only [Option.isSome_none, Bool.false_eq_true, false_iff] at hsome
      exact Option.not_isSome_iff_eq_none.mp hsome
    rw [hf₂]
    simp
  | some p =>
    obtain ⟨q, hf₂⟩ : ∃ q, firstHit uid l₂ = some q := by
      rw [hf₁] at hsome
      cases hq : firstHit uid l₂ with
      | none => rw [hq] at hsome; simp at hsome
      | some q => exact ⟨q, rfl⟩
    rw [hf₂]
    simp only [Option.map_some']
    refine congrArg some (Set.ext fun n => ?_)
    simp [candidateScopeSet, mkCandidate, mem_scopeNames, h.mem_iff]

/-- Claim C2 witness: the concrete permuted pair from the spec scenario,
applications in order A,B versus B,A. -/
theorem generate_unique_users_order_independent_witness :
    List.Perm [cexAppA, cexAppB] [cexAppB, cexAppA] ∧
    (generate_unique_users_for_reenrollment [cexAppA, cexAppB]
        = generate_unique_users_for_reenrollment [cexAppA, cexAppB] ∧
     ∀ uid : String,
       Option.map candidateScopeSet
           (generate_unique_users_for_reenrollment [cexAppA, cexAppB] uid)
         = Option.map candidateScopeSet
           (generate_unique_users_for_reenrollment [cexAppB, cexAppA] uid)) :=
  have hp : List.Perm [cexAppA, cexAppB] [cexAppB, cexAppA] :=
    List.Perm.swap cexAppB cexAppA []
  ⟨hp, generate_unique_users_order_independent _ _ hp⟩

/-- Claim C3 counterexample: with two applications both targeting the user
id `u1`, the non-set fields of the resulting entry come from the FIRST
processed application (App A, email `first@siteone.com`), not from the
most recently processed one (App B, email `second@siteone.com`) as the
claim states: later occurrences only append the application name. -/
theorem generate_unique_users_not_last_writer :
    Option.map (fun e => e.userEmail)
        (generate_unique_users_for_reenrollment [cexAppA, cexAppB] "u1")
      = some "first@siteone.com" ∧
    cexUserB.profile.email = "second@siteone.com" ∧
    "first@siteone.com" ≠ "second@siteone.com" := by
  refine ⟨by decide, by decide, by decide⟩

/-- Claim C3 as amended: when the same user identifier appears under
several applications, the aggregator accumulates every such application
name into `appsInScope` (union at the set level), and the non-set fields
(userName, userFullName, userEmail, oktaVerifyExistingFactor) are
first-writer-wins — the candidate record of the FIRST processed
occurrence supplies them. -/
theorem generate_unique_users_union_first_writer
    (l : List TargetedApp) (uid nm : String) (tu : TargetUser)
    (h : firstHit uid l = some (nm, tu)) :
    ∃ e, generate_unique_users_for_reenrollment l uid = some e ∧
      e.userId = tu.id ∧
      e.userName = userNameOf tu ∧
      e.userFullName = userFullNameOf tu ∧
      e.userEmail = tu.profile.email ∧
      e.oktaVerifyExistingFactor = tu.userPushFactorExists ∧
      ∀ n, n ∈ e.appsInScope ↔
        ∃ a ∈ l, a.name = n ∧
          ∃ tu2 ∈ a.usersTargetedForReEnrollment, tu2.id = uid := by
  refine ⟨mkCandidate (scopeNames uid l) tu, ?_, rfl, rfl, rfl, rfl, rfl, ?_⟩
  · rw [generate_unique_users_apply, h, Option.map_some']
  · intro n
    simp [mkCandidate, mem_scopeNames]

/-- Claim C3 witness: the amended statement at the concrete two-application
scenario, first occurrence in App A. -/
theorem generate_unique_users_union_first_writer_witness :
    firstHit "u1" [cexAppA, cexAppB] = some ("App A", cexUserA) ∧
    (∃ e, generate_unique_users_for_reenrollment [cexAppA, cexAppB] "u1" = some e ∧
      e.userId = cexUserA.id ∧
      e.userName = userNameOf cexUserA ∧
      e.userFullName = userFullNameOf cexUserA ∧
      e.userEmail = cexUserA.profile.email ∧
      e.oktaVerifyExistingFactor = cexUserA.userPushFactorExists ∧
      ∀ n, n ∈ e.appsInScope ↔
        ∃ a ∈ [cexAppA, cexAppB], a.name = n ∧
          ∃ tu2 ∈ a.usersTargetedForReEnrollment, tu2.id = "u1") := by
  have h : firstHit "u1" [cexAppA, cexAppB] = some ("App A", cexUserA) := by decide
  exact ⟨h, generate_unique_users_union_first_writer _ _ _ _ h⟩

/-- Claim C4: the display-name fallback is broken by the slip at line 178
of `find_app_users_no_device.py`.  A candidate whose profile has firstName
and lastName but no displayName is supposed to get firstName-space-lastName
as userFullName; because the code checks the substring `lastName` inside
the EMAIL STRING instead of the key in the profile dict, such a candidate
falls through to the login name.  The third conjunct records the half of
the claim that does hold: a profile with none of the three name fields
falls back to the login name. -/
theorem userFullName_email_substring_bug :
    userFullNameOf
        { id := "u1"
          profile :=
            { login := some "jdoe@siteone.com"
              email := "jdoe@siteone.com"
              displayName := none
              firstName := some "John"
              lastName := some "Doe" }
          userPushFactorExists := true }
      = "jdoe@siteone.com" ∧
    "jdoe@siteone.com" ≠ "John Doe" ∧
    userFullNameOf
        { id := "u2"
          profile :=
            { login := some "nonames@siteone.com"
              email := "nn@siteone.com"
              displayName := none
              firstName := none
              lastName := none }
          userPushFactorExists := true }
      = "nonames@siteone.com" := by
  refine ⟨by decide, by decide, by decide⟩

/-- Claim C5 counterexample: the claim instantiates its rule at
`tobarowski@example.com`, but `fetch_user` only accepts emails matching
`.*@siteone\.com`; on that input the validation raises ValueError and the
script exits, so no query at all is issued — in particular not the query
`TObarowski@example.com` the claim promises. -/
theorem fetch_user_rejects_example_email :
    fetch_user (some "tobarowski@example.com") = none ∧
    fetch_user (some "ab@example.com") = none ∧
    (none : Option String) ≠ some "TObarowski@example.com" := by
  refine ⟨by decide, by decide, by decide⟩

/-- Claim C5 as amended: for every email the single-user lookup accepts
(the validation requires a match of `.*@siteone\.com`), the issued query
uses the email with exactly its first two characters uppercased and the
remainder untouched. -/
theorem fetch_user_query_uppercases_first_two (e q : String)
    (h : fetch_user (some e) = some q) :
    q = upperFirstTwo e := by
  simp only [fetch_user] at h
  split at h
  · injection h with h
    exact h.symm
  · cases h

/-- Claim C5 witness: the accepted analogue of the claim example,
`tobarowski@siteone.com`, is queried as `TObarowski@siteone.com`. -/
theorem fetch_user_query_uppercases_first_two_witness :
    fetch_user (some "tobarowski@siteone.com") = some "TObarowski@siteone.com" ∧
    "TObarowski@siteone.com" = upperFirstTwo "tobarowski@siteone.com" :=
  ⟨by decide, fetch_user_query_uppercases_first_two _ _ (by decide)⟩

/-- Claim C6 states the intent of the spec but the code has a slip: the
failure isolation only covers calls that fail with an HTTPError or a
Timeout.  With 3 push factors where the 2nd call fails with any other
requests error (for example a ConnectionError), the clause
`except RequestException` at line 452 of `okta_user_functions.py`
evaluates a name the module never imports, so Python raises an uncaught
NameError and the run aborts mid-loop: no record is returned, the 3rd
factor is never attempted and the 2nd is never recorded (first and third
conjuncts) — instead of the claimed record with factors 1 and 3 under
successful and factor 2 under failed.  The second conjunct shows that the
very same scenario with a handled failure class (HTTPError or Timeout on
the 2nd call) does produce exactly the record the claim describes, so the
divergence is precisely the unhandled error class. -/
theorem unenroll_loop_aborts_on_unhandled_request_error :
    unenrollRun
        (fun i => if i = 1 then .otherRequestError else .ok)
        [⟨"f1", "push"⟩, ⟨"f2", "push"⟩, ⟨"f3", "push"⟩] 0
      = none ∧
    unenrollRun
        (fun i => if i = 1 then .httpOrTimeout else .ok)
        [⟨"f1", "push"⟩, ⟨"f2", "push"⟩, ⟨"f3", "push"⟩] 0
      = some ⟨[⟨"f1", "push"⟩, ⟨"f2", "push"⟩, ⟨"f3", "push"⟩],
              [⟨"f1", "push"⟩, ⟨"f3", "push"⟩],
              [⟨"f2", "push"⟩]⟩ ∧
    (none : Option UnenrollTrace)
      ≠ some ⟨[⟨"f1", "push"⟩, ⟨"f2", "push"⟩, ⟨"f3", "push"⟩],
              [⟨"f1", "push"⟩, ⟨"f3", "push"⟩],
              [⟨"f2", "push"⟩]⟩ := by
  refine ⟨by decide, by decide, by decide⟩

/-- Claim C7: the factors fetch returns the empty factor list on an error
response exactly when that response is a 404-style HTTPError; every other
error class (timeout, transport failure, non-404 HTTP error, embedded
error field) exits the run. -/
theorem fetch_user_factors_notfound_is_empty (r : FactorsApiResult)
    (h : isErrorResponse r = true) :
    (fetch_user_factors r = .ok [] ↔ r = .httpError 404) ∧
    (r ≠ .httpError 404 → fetch_user_factors r = .fatalExit) := by
  cases r with
  | success fs => simp [isErrorResponse] at h
  | successWithErrorField => simp [fetch_user_factors]
  | httpError s =>
    by_cases h4 : s = 404
    · subst h4
      simp [fetch_user_factors]
    · simp [fetch_user_factors, h4]
  | timeout => simp [fetch_user_factors]
  | transportError => simp [fetch_user_factors]

/-- Claim C7 witness: the 404 HTTPError instance. -/
theorem fetch_user_factors_notfound_is_empty_witness :
    isErrorResponse (.httpError 404) = true ∧
    ((fetch_user_factors (.httpError 404) = .ok []
        ↔ (FactorsApiResult.httpError 404) = .httpError 404) ∧
     ((FactorsApiResult.httpError 404) ≠ .httpError 404 →
        fetch_user_factors (.httpError 404) = .fatalExit)) :=
  ⟨by decide, fetch_user_factors_notfound_is_empty _ (by decide)⟩

/-- Claim C8: over a well-formed paged endpoint (every non-terminal page
carries the continuation cursor, the terminal page carries none), the
paged fetch of `fetch_users` and `fetch_devices` returns the concatenation
of all pages in page order and issues exactly one call per page,
terminating without error on the cursor-less page. -/
theorem paged_fetch_concatenates {α : Type} (pages : List (FetchPage α))
    (h : CursorChain pages) :
    paged_fetch pages = (pagesItems pages, pages.length) := by
  induction h with
  | terminal items => simp [paged_fetch, pagesItems]
  | step items rest hrest ih => simp [paged_fetch, pagesItems, ih]

/-- Claim C8 witness: the three-page endpoint [P1 with cursor, P2 with
cursor, P3 terminal] yields P1+P2+P3 with exactly 3 calls. -/
theorem paged_fetch_concatenates_witness :
    CursorChain examplePages ∧
    paged_fetch examplePages = (pagesItems examplePages, examplePages.length) := by
  have h : CursorChain examplePages := by
    unfold examplePages
    exact CursorChain.step _ _ (CursorChain.step _ _ (CursorChain.terminal _))
  exact ⟨h, paged_fetch_concatenates _ h⟩

/-- Claim C9 counterexample: for a token whose computed expiry
(fetched plus expires_in = 0) is strictly earlier than the current time
(1), `is_token_expired` returns true, i.e. it DOES report the token as
expired — the claimed inversion of the comparison direction does not hold
on the return value (only the two debug log strings are swapped). -/
theorem is_token_expired_claim_false :
    ((0 : Int) + 0 < 1) ∧
    is_token_expired 0 0 1 = true ∧
    is_token_expired 0 0 1 ≠ false := by
  refine ⟨by decide, by decide, by decide⟩

/-- Claim C9 as amended: whenever the computed expiry timestamp is
strictly earlier than the current time, `is_token_expired` returns true
(expired) — the comparison direction matches the intended expiry
semantics; only the debug log messages on its two branches are swapped. -/
theorem is_token_expired_expired_when_past
    (fetched_timestamp expires_in current_time : Int)
    (h : fetched_timestamp + expires_in < current_time) :
    is_token_expired fetched_timestamp expires_in current_time = true := by
  unfold is_token_expired
  rw [if_neg (by omega)]

/-- Claim C9 witness: the concrete past-expiry instance. -/
theorem is_token_expired_expired_when_past_witness :
    ((0 : Int) + 0 < 1) ∧ is_token_expired 0 0 1 = true :=
  ⟨by decide, is_token_expired_expired_when_past 0 0 1 (by decide)⟩

/-- Claim C10: after the unenroll-all stage, every factor occurrence of
the input `userPushFactorList` lands in exactly one of the two result
lists (the counts of any factor in the two lists add up to its count in
the input), both result lists preserve the original order (they are
sublists of the input), `userPushFactorList` itself is unchanged, and no
other pre-existing field of the user record is modified. -/
theorem unenroll_all_partition_frame (ok : Nat → Bool) (u : EnrollmentUser) :
    (∀ f : Factor,
        (unenroll_all_user_push_factors ok u).userSuccessfulUnenrolledFactors.count f
          + (unenroll_all_user_push_factors ok u).userFailedUnenrolledFactors.count f
          = u.userPushFactorList.count f) ∧
    List.Sublist
      (unenroll_all_user_push_factors ok u).userSuccessfulUnenrolledFactors
      u.userPushFactorList ∧
    List.Sublist
      (unenroll_all_user_push_factors ok u).userFailedUnenrolledFactors
      u.userPushFactorList ∧
    (unenroll_all_user_push_factors ok u).userPushFactorList = u.userPushFactorList ∧
    (unenroll_all_user_push_factors ok u).id = u.id ∧
    (unenroll_all_user_push_factors ok u).profile = u.profile ∧
    (unenroll_all_user_push_factors ok u).userPushFactorExists = u.userPushFactorExists ∧
    (unenroll_all_user_push_factors ok u).allUserFactors = u.allUserFactors :=
  ⟨fun f => unenrollLoop_count ok _ f 0,
   unenrollLoop_succeeded_sublist ok _ 0,
   unenrollLoop_failed_sublist ok _ 0,
   rfl, rfl, rfl, rfl, rfl⟩

end Okta
